import Mathlib

/-!
Verification development for the ECG analysis engine of
`src/ecg_analysis.py` (class ECGAnalyzer).

Modelling conventions, used uniformly below:

* Floating point arithmetic is modelled by exact rational arithmetic (ℚ).
  Decimal literals such as `0.12` denote the exact rationals the Python
  source writes; IEEE rounding of these literals is out of scope.
* NumPy operations that produce NaN (mean of an empty array, a `0/0`
  division) are modelled by `Option ℚ` with `none` standing for the
  non-finite result; every comparison of the source of the form
  `nan > c` is `False` in Python and is modelled by `false` on `none`.
* SciPy/NumPy library calls whose numerics are external to the repository
  (Butterworth filtering, `find_peaks`, FFT, Welch PSD, wavelets, square
  roots) are modelled as explicit function/value parameters of the
  embedding; each definition's doc comment names what such a parameter
  stands for.  Facts the library documents (for example the `distance`
  guarantee of `find_peaks`) appear as hypotheses of the theorems.
* Python integer arithmetic on indices is modelled by ℕ/ℤ; where the
  source can only reach a branch with non-negative values, ℕ subtraction
  agrees with Python and is used directly, with a comment at each spot.
-/

/-- First index of the maximum of a list (`np.argmax`); `0` on the empty
list, where NumPy would raise. -/
def argmaxIdx : List ℚ → ℕ
  | [] => 0
  | [_] => 0
  | x :: y :: rest =>
      let j := argmaxIdx (y :: rest)
      if (y :: rest).getD j 0 > x then j + 1 else 0

/-- First index of the minimum of a list (`np.argmin`); `0` on the empty
list, where NumPy would raise. -/
def argminIdx : List ℚ → ℕ
  | [] => 0
  | [_] => 0
  | x :: y :: rest =>
      let j := argminIdx (y :: rest)
      if (y :: rest).getD j 0 < x then j + 1 else 0

/-- Python slice `xs[s:e]` of a list (clipping at both ends, empty when
`e ≤ s`). -/
def sliceL (xs : List ℚ) (s e : ℕ) : List ℚ := (xs.drop s).take (e - s)

/-- `np.diff` on an integer index array: consecutive differences, in ℤ. -/
def diffZ (xs : List ℕ) : List ℤ := (xs.zip xs.tail).map (fun p => (p.2 : ℤ) - (p.1 : ℤ))

/-- `np.diff` on a rational array: consecutive differences. -/
def diffQ (xs : List ℚ) : List ℚ := (xs.zip xs.tail).map (fun p => p.2 - p.1)

/-- `np.mean`: `none` on the empty list (NumPy yields NaN there). -/
def meanQ (xs : List ℚ) : Option ℚ := if xs.isEmpty then none else some (xs.sum / xs.length)

/-- `np.max` of a list; `0` on the empty list, where NumPy would raise. -/
def maxD : List ℚ → ℚ
  | [] => 0
  | x :: xs => xs.foldl max x

/-- `np.median`: sort ascending, take the middle element (odd length) or
the average of the two middle elements (even length); `none` on the empty
list (NumPy yields NaN there). -/
def medianQ (l : List ℚ) : Option ℚ :=
  let s := l.insertionSort (· ≤ ·)
  if s.length = 0 then none
  else if s.length % 2 = 1 then some (s.getD (s.length / 2) 0)
  else some ((s.getD (s.length / 2 - 1) 0 + s.getD (s.length / 2) 0) / 2)

/-- `np.trapz(np.abs(xs))` with unit spacing: sum of the averages of
consecutive absolute values. -/
def trapzAbs (xs : List ℚ) : ℚ := ((xs.zip xs.tail).map (fun p => (|p.1| + |p.2|) / 2)).sum

/-- Body of the refinement loop of `ECGAnalyzer.detect_r_peaks`
(lines 58-66): a coarse peak within `w` samples of either boundary is
discarded (`continue`); otherwise it is replaced by the index of the
maximum of the original signal in the window `[peak-w, peak+w)`.
The boundary test `peak >= len(ecg) - search_window` is on Python ints;
with ℕ subtraction `len - w` truncates at `0`, in which case every
`peak ≥ 0` is discarded — exactly as in Python, where a negative
`len - w` discards all.  `max(0, peak - search_window)` of line 63 is
the ℕ subtraction `peak - w` (the guard ensures `w ≤ peak`). -/
def refineOne (ecg : List ℚ) (w : ℕ) (peak : ℕ) : Option ℕ :=
  if peak < w ∨ ecg.length - w ≤ peak then none
  else
    let s := peak - w
    let e := min ecg.length (peak + w)
    some (s + argmaxIdx (sliceL ecg s e))

/-- `ECGAnalyzer.detect_r_peaks` (lines 22-68).  `coarse` models the
output of `scipy.signal.find_peaks` on the moving-window-integrated
signal (lines 33-52: Butterworth band-pass, derivative, squaring and
integration are library numerics external to the repository); the
`distance=int(0.2*rate)` guarantee of `find_peaks` appears as a
hypothesis of the theorems.  `fs / 40` is `int(0.025 * rate)`, the
±25 ms refinement half-window (exact for the analyzer's default
`rate = 250`, where `int(0.025*250) = 6`). -/
def detect_r_peaks (ecg : List ℚ) (fs : ℕ) (coarse : List ℕ) : List ℕ :=
  coarse.filterMap (refineOne ecg (fs / 40))

/-- Return record of `ECGAnalyzer.analyze_rr_intervals`.  `np.std` and the
RMSSD are square roots of rational quantities; to stay in ℚ the record
holds their squares (`sdnn_sq` = variance of the RR intervals in seconds,
`rmssd_sq` = mean square of successive differences), with every downstream
threshold comparison squared accordingly; a field is `none` exactly when
the float it models is NaN (mean over an empty array, `0/0`). -/
structure RRRec where
  rr_intervals : List ℤ
  rr_intervals_sec : List ℚ
  average_hr : Option ℚ
  sdnn_sq : Option ℚ
  rmssd_sq : Option ℚ
  pnn50 : Option ℚ
  irregularity : Bool
  bradycardia : Bool
  tachycardia : Bool
deriving DecidableEq, Repr

/-- `ECGAnalyzer.analyze_rr_intervals` (lines 70-130).  Returns `none`
for fewer than 2 peaks (line 89).  The heart-rate mean `60 / rr` and the
coefficient of variation follow the source; the embedding is exact on the
pipeline's domain of strictly increasing peak indices (where every RR
interval is positive); on degenerate index lists a zero RR interval would
make Python produce an infinite heart rate where `60 / 0 = 0` here — no
claim touches that corner.  The irregularity test `sdnn/mean > 0.1` is
squared: for `mean > 0` it is `variance * 100 > mean²`; for `mean = 0` the
float quotient is `inf` (true) when the variance is positive and NaN
(false) when it is zero, which the second branch reproduces. -/
def analyze_rr_intervals (fs : ℕ) (r_peaks : List ℕ) : Option RRRec :=
  if r_peaks.length < 2 then none else
  let rr := diffZ r_peaks
  let rrSec := rr.map (fun x => (x : ℚ) / (fs : ℚ))
  let hrs := rrSec.map (fun x => 60 / x)
  let avgHr := meanQ hrs
  let mRR := meanQ rrSec
  let sdnnSq := match mRR with
    | some m => meanQ (rrSec.map (fun x => (x - m) ^ 2))
    | none => none
  let rmssdSq := meanQ ((diffQ rrSec).map (fun x => x ^ 2))
  let ds := (diffQ rrSec).map (fun x => |x|)
  let pnn50v : Option ℚ :=
    if ds.isEmpty then none
    else some (100 * ((ds.filter (fun d => decide ((0.05 : ℚ) < d))).length : ℚ) / (ds.length : ℚ))
  let cvHigh : Bool := match sdnnSq, mRR with
    | some v, some m => if 0 < m then decide (100 * v > m ^ 2) else decide (m = 0 ∧ 0 < v)
    | _, _ => false
  let irr := cvHigh || (match pnn50v with | some p => decide ((10 : ℚ) < p) | none => false)
  let brady := match avgHr with | some h => decide (h < 60) | none => false
  let tachy := match avgHr with | some h => decide ((100 : ℚ) < h) | none => false
  some ⟨rr, rrSec, avgHr, sdnnSq, rmssdSq, pnn50v, irr, brady, tachy⟩

/-- Outputs of the library transforms used by
`ECGAnalyzer.frequency_domain_analysis`, supplied as data: `ecg_fft`
(complex spectrum as real/imaginary pairs), `ecg_freqs`/`ecg_psd` (the
positive-frequency bins and normalized power spectrum of lines 409-421),
`welch` (the Welch periodogram of the detrended 4 Hz RR tachogram of
lines 439-455, as frequency/power pairs), and `wavelet` (the 4-level db4
decomposition of line 485, `none` when `pywt.wavedec` raises). -/
structure FreqPayload where
  ecg_fft : List (ℚ × ℚ)
  ecg_freqs : List ℚ
  ecg_psd : List ℚ
  welch : List (ℚ × ℚ)
  wavelet : Option (List (List ℚ))
deriving DecidableEq, Repr

/-- Return record of `ECGAnalyzer.frequency_domain_analysis`.  The HRV
and wavelet fields are `Option` because the record constructed at lines
425-434 sets them to `None`; `lf_hf_quotient` (field `lf_hf_ratio` of the
source) is additionally `none` when `hrv_hf ≤ 0`, where the source stores
`float('inf')`. -/
structure FreqRec where
  ecg_fft : List (ℚ × ℚ)
  ecg_freqs : List ℚ
  ecg_psd : List ℚ
  hrv_lf : Option ℚ
  hrv_hf : Option ℚ
  lf_hf_quotient : Option ℚ
  wavelet_coeffs : Option (List (List ℚ))
  afib_probability : Option ℚ
deriving DecidableEq, Repr

/-- `ECGAnalyzer.frequency_domain_analysis` (lines 387-513).  The guard of
line 406 returns `none` when the signal is shorter than 1000 samples or
fewer than 10 R-peaks were found; the record of lines 425-434 (raw
spectrum populated, HRV fields `None`) is behind a second `len(r_peaks)
< 10` test at line 424 that can never hold once the line-406 guard has
passed.  LF/HF band powers, their quotient, and the AFib score of lines
457-502 are computed exactly from the supplied Welch and wavelet data. -/
def frequency_domain_analysis (P : FreqPayload) (ecg : List ℚ) (r_peaks : List ℕ) :
    Option FreqRec :=
  if ecg.length < 1000 ∨ r_peaks.length < 10 then none
  else if r_peaks.length < 10 then
    some ⟨P.ecg_fft, P.ecg_freqs, P.ecg_psd, none, none, none, none, none⟩
  else
    let lf := ((P.welch.filter (fun p => decide ((0.04 : ℚ) ≤ p.1 ∧ p.1 ≤ 0.15))).map Prod.snd).sum
    let hf := ((P.welch.filter (fun p => decide ((0.15 : ℚ) ≤ p.1 ∧ p.1 ≤ 0.4))).map Prod.snd).sum
    let lfhf : Option ℚ := if 0 < hf then some (lf / hf) else none
    let total := (P.welch.map Prod.snd).sum
    let hfNorm : ℚ := if 0 < total then hf / total else 0
    let a1 : ℚ := if (match lfhf with | some q => decide (q < 0.5) | none => false) then 30 else 0
    let a2 : ℚ := if (0.5 : ℚ) < hfNorm then 30 else 0
    let wc : Option (List (List ℚ)) × ℚ := match P.wavelet with
      | some coeffs =>
          let d1 := ((coeffs.getD 1 []).map (fun x => x ^ 2)).sum
          let totalE := (coeffs.map (fun c => (c.map (fun x => x ^ 2)).sum)).sum
          let noiseFrac : ℚ := if 0 < totalE then d1 / totalE else 0
          (some coeffs, if (0.4 : ℚ) < noiseFrac then 20 else 0)
      | none => (none, 0)
    let afib := min (a1 + a2 + wc.2) 100
    some ⟨P.ecg_fft, P.ecg_freqs, P.ecg_psd, some lf, some hf, lfhf, wc.1, some afib⟩

/-- `int(0.06 * fs)` of line 249, the 60 ms QRS half-window in samples
(exact for the analyzer's default rate 250, where it is 15). -/
def qrsHalfWidth (fs : ℕ) : ℕ := 3 * fs / 50

/-- Per-beat Q/S delineation of `ECGAnalyzer.analyze_qrs_morphology`
(lines 252-283): returns `(duration, area, amplitude)` for one R-peak.
A beat whose ±`qrsHalfWidth` window runs off either signal edge is
skipped by the `continue` of line 254, so its entries keep the zero
initial values of lines 241-243.  On the non-skipped path `max(0, r-w)`
is the ℕ subtraction `r - w` and `min(len, r+w)` is `r + w`. -/
def beatMetrics (ecg : List ℚ) (fs : ℕ) (r : ℕ) : ℚ × ℚ × ℚ :=
  let w := qrsHalfWidth fs
  if r < w ∨ ecg.length ≤ r + w then (0, 0, 0)
  else
    let qs := r - w
    let qrsComplex := sliceL ecg qs (min ecg.length (r + w))
    let firstHalf := qrsComplex.take w
    let secondHalf := qrsComplex.drop w
    let qPoint := qs + argminIdx firstHalf
    let sPoint := qs + w + argminIdx secondHalf
    let dur : ℚ := ((sPoint : ℚ) - (qPoint : ℚ)) / (fs : ℚ)
    let area := trapzAbs (sliceL ecg qPoint sPoint)
    let amp := ecg.getD r 0 - min (ecg.getD qPoint 0) (ecg.getD sPoint 0)
    (dur, area, amp)

/-- The `qrs_durations` array (line 241/274). -/
def qrsDurations (ecg : List ℚ) (fs : ℕ) (r_peaks : List ℕ) : List ℚ :=
  r_peaks.map (fun r => (beatMetrics ecg fs r).1)

/-- The `qrs_areas` array (line 242/277). -/
def qrsAreas (ecg : List ℚ) (fs : ℕ) (r_peaks : List ℕ) : List ℚ :=
  r_peaks.map (fun r => (beatMetrics ecg fs r).2.1)

/-- The `qrs_amplitudes` array (line 243/283). -/
def qrsAmplitudes (ecg : List ℚ) (fs : ℕ) (r_peaks : List ℕ) : List ℚ :=
  r_peaks.map (fun r => (beatMetrics ecg fs r).2.2)

/-- The `qrs_areas_norm` array (lines 244, 286-287): area over amplitude
for beats of positive amplitude, zero otherwise. -/
def qrsAreasNorm (ecg : List ℚ) (fs : ℕ) (r_peaks : List ℕ) : List ℚ :=
  r_peaks.map (fun r =>
    let m := beatMetrics ecg fs r
    if 0 < m.2.2 then m.2.1 / m.2.2 else 0)

/-- `median_duration` of line 290: the median over the positive QRS
durations; `none` models the NaN `np.median` returns on an empty
selection. -/
def medianDuration (ecg : List ℚ) (fs : ℕ) (r_peaks : List ℕ) : Option ℚ :=
  medianQ ((qrsDurations ecg fs r_peaks).filter (fun q => decide (0 < q)))

/-- `median_area_norm` of line 291. -/
def medianAreaNorm (ecg : List ℚ) (fs : ℕ) (r_peaks : List ℕ) : Option ℚ :=
  medianQ ((qrsAreasNorm ecg fs r_peaks).filter (fun q => decide (0 < q)))

/-- The `abnormal_qrs[i]` flag set in lines 294-301: wide QRS
(duration > 0.12 s) or normalized area off the median by more than ±50%.
A comparison against a NaN median is `False` in Python (`none` branch). -/
def abnormalQrsAt (ecg : List ℚ) (fs : ℕ) (r_peaks : List ℕ) (i : ℕ) : Bool :=
  let d := (qrsDurations ecg fs r_peaks).getD i 0
  let nrm := (qrsAreasNorm ecg fs r_peaks).getD i 0
  decide ((0.12 : ℚ) < d) ||
    (match medianAreaNorm ecg fs r_peaks with
     | some m => decide (1.5 * m < nrm) || decide (nrm < 0.5 * m)
     | none => false)

/-- The PVC test of lines 307-316 for interior beat `i`: premature
preceding RR, compensatory following RR (both compared against the
median QRS *duration*, as written in the source), wide QRS, and
normalized area off the median by more than ±30%.  A NaN median makes
every comparison `False` in Python, hence the `false` fallthrough. -/
def pvcCondAt (ecg : List ℚ) (fs : ℕ) (r_peaks : List ℕ) (i : ℕ) : Bool :=
  match medianDuration ecg fs r_peaks, medianAreaNorm ecg fs r_peaks with
  | some md, some man =>
      let rrPrev : ℚ := ((r_peaks.getD i 0 : ℚ) - (r_peaks.getD (i - 1) 0 : ℚ)) / (fs : ℚ)
      let rrNext : ℚ := ((r_peaks.getD (i + 1) 0 : ℚ) - (r_peaks.getD i 0 : ℚ)) / (fs : ℚ)
      decide (rrPrev < 0.8 * md) && decide (1.2 * md < rrNext) &&
        decide ((0.12 : ℚ) < (qrsDurations ecg fs r_peaks).getD i 0) &&
        (decide ((qrsAreasNorm ecg fs r_peaks).getD i 0 < 0.7 * man) ||
          decide (1.3 * man < (qrsAreasNorm ecg fs r_peaks).getD i 0))
  | _, _ => false

/-- The `pvc_locations` list built by the loop of lines 294-316: the
values `r_peaks[i]` of the interior beats passing `pvcCondAt`, in beat
order. -/
def pvcLocations (ecg : List ℚ) (fs : ℕ) (r_peaks : List ℕ) : List ℕ :=
  ((List.range r_peaks.length).filter (fun i =>
      decide (0 < i) && decide (i + 1 < r_peaks.length) && pvcCondAt ecg fs r_peaks i)).map
    (fun i => r_peaks.getD i 0)

/-- The negative-dominant deflection flags of lines 330-344: beats whose
window runs off an edge keep `False`; otherwise the rectified negative
area is compared against the positive area of the QRS window. -/
def negDeflection (ecg : List ℚ) (fs : ℕ) (r_peaks : List ℕ) : List Bool :=
  let w := qrsHalfWidth fs
  r_peaks.map (fun r =>
    if r < w ∨ ecg.length ≤ r + w then false
    else
      let c := sliceL ecg (r - w) (min ecg.length (r + w))
      let posArea := (c.map (fun x => max 0 x)).sum
      let negArea := -((c.map (fun x => min 0 x)).sum)
      decide (posArea < negArea))

/-- The RSR-prime counting loop of lines 356-374.  `findPeaksPlain`
models `scipy.signal.find_peaks` with default arguments on the 60 ms
window after each R-peak; the count collects beats that are not
negative-dominant, have a full window, more than 10 samples in the
second half, and a first secondary peak within `0.06 * fs` samples. -/
def notchedCount (findPeaksPlain : List ℚ → List ℕ) (ecg : List ℚ) (fs : ℕ)
    (r_peaks : List ℕ) : ℕ :=
  let w := qrsHalfWidth fs
  let nd := negDeflection ecg fs r_peaks
  ((List.range r_peaks.length).filter (fun i =>
    !(nd.getD i false) &&
      (let r := r_peaks.getD i 0
       !(decide (r < w) || decide (ecg.length ≤ r + w)) &&
         (let half := sliceL ecg r (r + w)
          decide (10 < half.length) &&
            (match findPeaksPlain half with
             | c :: _ => decide ((c : ℚ) < 0.06 * (fs : ℚ))
             | [] => false))))).length

/-- Return record of `ECGAnalyzer.analyze_qrs_morphology`
(lines 376-385). -/
structure QRSRec where
  qrs_durations : List ℚ
  qrs_areas : List ℚ
  qrs_amplitudes : List ℚ
  abnormal_qrs : List Bool
  pvc_locations : List ℕ
  wide_qrs_percentage : ℚ
  lbbb_probability : ℚ
  rbbb_probability : ℚ
deriving DecidableEq, Repr

/-- `ECGAnalyzer.analyze_qrs_morphology` (lines 219-385).  Returns `none`
for fewer than 2 peaks.  `pvc_locations` collects `r_peaks[i]` for the
interior beats passing `pvcCondAt`, in beat order, exactly as the loop of
lines 294-316 appends them.  The bundle-branch heuristics of lines
318-374 run only when more than 70% of all beats are wide. -/
def analyze_qrs_morphology (findPeaksPlain : List ℚ → List ℕ) (ecg : List ℚ) (fs : ℕ)
    (r_peaks : List ℕ) : Option QRSRec :=
  if r_peaks.length < 2 then none else
  let len := r_peaks.length
  let durations := qrsDurations ecg fs r_peaks
  let areas := qrsAreas ecg fs r_peaks
  let amps := qrsAmplitudes ecg fs r_peaks
  let abnormal := (List.range len).map (abnormalQrsAt ecg fs r_peaks)
  let pvcLocs := pvcLocations ecg fs r_peaks
  let wideCount := (durations.filter (fun q => decide ((0.12 : ℚ) < q))).length
  let bbb : ℚ × ℚ :=
    if (0.7 : ℚ) * (len : ℚ) < (wideCount : ℚ) then
      let nd := negDeflection ecg fs r_peaks
      let lcount := nd.count true
      let lbbb : ℚ :=
        if (0.7 : ℚ) * (nd.length : ℚ) < (lcount : ℚ) then 80
        else if (0.5 : ℚ) * (nd.length : ℚ) < (lcount : ℚ) then 50 else 0
      let notched := notchedCount findPeaksPlain ecg fs r_peaks
      let rbbb : ℚ :=
        if (0.3 : ℚ) * (len : ℚ) < (notched : ℚ) then 70
        else if (0.1 : ℚ) * (len : ℚ) < (notched : ℚ) then 40 else 0
      (lbbb, rbbb)
    else (0, 0)
  some ⟨durations, areas, amps, abnormal, pvcLocs,
    100 * (wideCount : ℚ) / (len : ℚ), bbb.1, bbb.2⟩

/-- Per-beat P-wave search of `ECGAnalyzer.detect_p_waves`
(lines 162-192), on the 1-10 Hz band-passed signal (supplied as
`filtered`; the `filtfilt` chain of lines 150-155 is library numerics).
`findPeaksH` models `scipy.signal.find_peaks(segment, height, distance)`.
Returns `(present, pr_interval, p_location)`; a beat too close to the
signal start, with an empty search window, or with no candidate keeps
the zero initial values of lines 158-159.  `int(0.05 * fs)` is `fs / 20`
and `int(0.2 * fs)` is `fs / 5` (both exact at the default rate 250);
on the taken branch `r > fs/5 ≥ fs/20`, so the ℕ subtractions agree with
Python's int arithmetic.  The most prominent candidate is the one whose
segment value is maximal, via NumPy fancy indexing `segment[candidates]`
(out-of-range candidate indices read the 0 default, unreachable for the
index lists `find_peaks` actually returns). -/
def pBeat (filtered : List ℚ) (findPeaksH : List ℚ → ℚ → ℕ → List ℕ) (fs : ℕ) (r : ℕ) :
    Bool × ℚ × Option ℕ :=
  let sw := fs / 5
  if r ≤ sw then (false, 0, none)
  else
    let sStart := r - sw
    let sEnd := r - fs / 20
    if sEnd ≤ sStart then (false, 0, none)
    else
      let segment := sliceL filtered sStart sEnd
      let cands := findPeaksH segment (0.05 * maxD segment) (fs / 20)
      match cands with
      | [] => (false, 0, none)
      | _ :: _ =>
          let vals := cands.map (fun c => segment.getD c 0)
          let pIdx := cands.getD (argmaxIdx vals) 0
          let pLoc := sStart + pIdx
          (true, ((r : ℚ) - (pLoc : ℚ)) / (fs : ℚ), some pLoc)

/-- Return record of `ECGAnalyzer.detect_p_waves` (lines 212-217). -/
structure PWaveRec where
  p_present : List Bool
  pr_intervals : List ℚ
  p_wave_locations : List ℕ
  afib_probability : ℚ
deriving DecidableEq, Repr

/-- `ECGAnalyzer.detect_p_waves` (lines 132-217).  Returns `none` for
fewer than 2 peaks.  `sqrtQ` models the real square root inside `np.std`
(the P-wave regularity of line 200 is `std/mean` of the P-P spacings and
its value, not only a comparison on it, feeds the AFib score of line
208, so it cannot be squared away); a zero mean spacing (only possible
for non-monotone location lists) gives `0` where floats give inf/NaN —
no claim depends on that corner. -/
def detect_p_waves (filtered : List ℚ) (findPeaksH : List ℚ → ℚ → ℕ → List ℕ)
    (sqrtQ : ℚ → ℚ) (fs : ℕ) (r_peaks : List ℕ) : Option PWaveRec :=
  if r_peaks.length < 2 then none else
  let per := r_peaks.map (pBeat filtered findPeaksH fs)
  let pPresent := per.map (fun t => t.1)
  let prIntervals := per.map (fun t => t.2.1)
  let locs := per.filterMap (fun t => t.2.2)
  let pct : ℚ := (pPresent.count true : ℚ) / (r_peaks.length : ℚ) * 100
  let reg : ℚ :=
    if 1 < locs.length then
      let ppQ := (diffZ locs).map (fun x => (x : ℚ))
      let m := ppQ.sum / (ppQ.length : ℚ)
      let v := (ppQ.map (fun x => (x - m) ^ 2)).sum / (ppQ.length : ℚ)
      sqrtQ v / m
    else 0
  let base : ℚ := if pct < 70 then (100 - pct) / 30 else 0
  let withReg : ℚ := if (0.2 : ℚ) < reg then base + 20 * reg else base
  some ⟨pPresent, prIntervals, locs, min 100 withReg⟩

/-- Confidence levels of the arrhythmia verdicts. -/
inductive Confidence where
  | low
  | medium
  | high
deriving DecidableEq, Repr

/-- One verdict of the arrhythmia table: probability and confidence. -/
structure Verdict where
  probability : ℚ
  confidence : Confidence
deriving DecidableEq, Repr

/-- The per-arrhythmia evidence counters of `determine_arrhythmias`. -/
structure EvidenceCounts where
  sinus_rhythm : ℕ
  bradycardia : ℕ
  tachycardia : ℕ
  afib : ℕ
  pvc : ℕ
  heart_block : ℕ
  lbbb : ℕ
  rbbb : ℕ
deriving DecidableEq, Repr

/-- The verdict table of `ECGAnalyzer.determine_arrhythmias`. -/
structure Arrhythmias where
  sinus_rhythm : Verdict
  bradycardia : Verdict
  tachycardia : Verdict
  afib : Verdict
  pvc : Verdict
  heart_block : Verdict
  lbbb : Verdict
  rbbb : Verdict
  evidence_counts : EvidenceCounts
deriving DecidableEq, Repr

/-- The initial table of lines 571-580: everything at 0/low except
sinus rhythm at 100/high. -/
def initArrhythmias : Arrhythmias :=
  ⟨⟨100, .high⟩, ⟨0, .low⟩, ⟨0, .low⟩, ⟨0, .low⟩, ⟨0, .low⟩, ⟨0, .low⟩, ⟨0, .low⟩,
    ⟨0, .low⟩, ⟨0, 0, 0, 0, 0, 0, 0, 0⟩⟩

/-- AFib evidence source 1 (lines 613-615): the P-wave AFib score
exceeds 50. -/
def afibFired1 (pw : Option PWaveRec) : Bool :=
  match pw with
  | some p => decide ((50 : ℚ) < p.afib_probability)
  | none => false

/-- AFib evidence source 2 (lines 618-620): RR irregularity together
with RMSSD above 0.1 s; the RMSSD comparison is squared (see `RRRec`),
`sqrt(m) > 0.1 ↔ m > 0.01` for the nonnegative mean square `m`, and a
NaN RMSSD (`none`) compares false exactly as in Python. -/
def afibFired2 (rrv : RRRec) : Bool :=
  rrv.irregularity &&
    (match rrv.rmssd_sq with
     | some v => decide ((0.01 : ℚ) < v)
     | none => false)

/-- AFib evidence source 3 (lines 623-625): the frequency-domain AFib
score exceeds 50.  (`none` can only come from the unreachable degraded
record, where Python would raise on `None > 50`.) -/
def afibFired3 (freq : Option FreqRec) : Bool :=
  match freq with
  | some f =>
      match f.afib_probability with
      | some a => decide ((50 : ℚ) < a)
      | none => false
  | none => false

/-- Number of AFib evidence sources that fired (`afib_evidence`). -/
def afibCount (rrv : RRRec) (pw : Option PWaveRec) (freq : Option FreqRec) : ℕ :=
  (if afibFired1 pw then 1 else 0) + (if afibFired2 rrv then 1 else 0) +
    (if afibFired3 freq then 1 else 0)

/-- `p_wave.get('afib_probability', 0)`: the P-wave AFib score, 0 when
the record is absent. -/
def pwScoreVal (pw : Option PWaveRec) : ℚ :=
  match pw with
  | some p => p.afib_probability
  | none => 0

/-- `freq.get('afib_probability', 0)`: the frequency-domain AFib score,
0 when the record is absent (and on the unreachable null score). -/
def freqScoreVal (freq : Option FreqRec) : ℚ :=
  match freq with
  | some f => (match f.afib_probability with | some a => a | none => 0)
  | none => 0

/-- The accumulated `afib_probability` of lines 609-625: P-wave score
times 0.4, flat 60 for the RR evidence, frequency score times 0.3, each
only when its source fired. -/
def afibSum (rrv : RRRec) (pw : Option PWaveRec) (freq : Option FreqRec) : ℚ :=
  (if afibFired1 pw then pwScoreVal pw * 0.4 else 0) +
  (if afibFired2 rrv then 60 else 0) +
  (if afibFired3 freq then freqScoreVal freq * 0.3 else 0)

/-- Heart-block stage of lines 659-681: returns the heart_block verdict,
the updated sinus probability, and the evidence increment.  The
second-degree test compares the count of present P-waves against the
R-peak count on Python ints, hence the ℤ subtraction. -/
def heartBlockStage (pw : Option PWaveRec) (rPeaksLen : ℕ) (sinusIn : ℚ) :
    Verdict × ℚ × ℕ :=
  match pw with
  | none => (⟨0, .low⟩, sinusIn, 0)
  | some p =>
      if p.pr_intervals.isEmpty then (⟨0, .low⟩, sinusIn, 0)
      else
        let pos := p.pr_intervals.filter (fun x => decide (0 < x))
        if pos.isEmpty then (⟨0, .low⟩, sinusIn, 0)
        else
          let avgPr := pos.sum / (pos.length : ℚ)
          let firstDeg : Bool := decide ((0.2 : ℚ) < avgPr)
          let v1 : Verdict := if firstDeg then ⟨80, .high⟩ else ⟨0, .low⟩
          let s1 := if firstDeg then sinusIn - 30 else sinusIn
          let missing : ℤ := (p.p_present.count true : ℤ) - (rPeaksLen : ℤ)
          let secondDeg : Bool := decide (0 < missing)
          let v2 : Verdict := if secondDeg then ⟨max v1.probability 70, .medium⟩ else v1
          let s2 := if secondDeg then s1 - 40 else s1
          (v2, s2, (if firstDeg then 1 else 0) + (if secondDeg then 1 else 0))

/-- The per-verdict clamp of lines 701-702. -/
def clampVerdict (v : Verdict) : Verdict := ⟨max 0 (min 100 v.probability), v.confidence⟩

/-- The test of line 705: some verdict among the seven non-sinus ones
exceeds probability 70. -/
def anyOver70 (b t a p h l r : Verdict) : Bool :=
  decide ((70 : ℚ) < b.probability) || decide ((70 : ℚ) < t.probability) ||
    decide ((70 : ℚ) < a.probability) || decide ((70 : ℚ) < p.probability) ||
    decide ((70 : ℚ) < h.probability) || decide ((70 : ℚ) < l.probability) ||
    decide ((70 : ℚ) < r.probability)

/-- Lines 700-709: clamp every probability to [0, 100], then floor the
sinus probability at 10 when any clamped non-sinus verdict exceeds 70,
and attach the evidence counters.  The sinus confidence is never
modified by the source, so it stays `high`. -/
def finalizeArrhythmias (sinus : ℚ) (brady tachy afib pvc hb lbbb rbbb : Verdict)
    (ev : EvidenceCounts) : Arrhythmias :=
  ⟨⟨if anyOver70 (clampVerdict brady) (clampVerdict tachy) (clampVerdict afib)
        (clampVerdict pvc) (clampVerdict hb) (clampVerdict lbbb) (clampVerdict rbbb)
      then max 10 (max 0 (min 100 sinus)) else max 0 (min 100 sinus), .high⟩,
    clampVerdict brady, clampVerdict tachy, clampVerdict afib, clampVerdict pvc,
    clampVerdict hb, clampVerdict lbbb, clampVerdict rbbb, ev⟩

/-- `ECGAnalyzer.determine_arrhythmias` (lines 561-711), over the
records of the four sub-analyses and the detected R-peak list.  The
early return of lines 588-589 (`rr` absent) yields the initial table
(there the source also omits the `evidence_counts` key; the embedding
keeps it at zeros — no claim touches that key on the early path).  Each
rule matches the source order: bradycardia, tachycardia, AFib fusion,
PVC percentage, heart block, bundle-branch blocks, final clamp and
sinus floor. -/
def determine_arrhythmias (r_peaks : List ℕ) (rr : Option RRRec) (pw : Option PWaveRec)
    (qrs : Option QRSRec) (freq : Option FreqRec) : Arrhythmias :=
  match rr with
  | none => initArrhythmias
  | some rrv =>
    let brady : Verdict := if rrv.bradycardia then ⟨90, .high⟩ else ⟨0, .low⟩
    let sinus1 : ℚ := if rrv.bradycardia then 100 - 30 else 100
    let evBrady : ℕ := if rrv.bradycardia then 1 else 0
    let tachy : Verdict := if rrv.tachycardia then ⟨90, .high⟩ else ⟨0, .low⟩
    let sinus2 : ℚ := if rrv.tachycardia then sinus1 - 30 else sinus1
    let evTachy : ℕ := if rrv.tachycardia then 1 else 0
    let nAfib := afibCount rrv pw freq
    let afib : Verdict :=
      if 2 ≤ nAfib then
        ⟨min 95 (afibSum rrv pw freq), if nAfib = 2 then .medium else .high⟩
      else ⟨0, .low⟩
    let sinus3 : ℚ :=
      if 2 ≤ nAfib then max 0 (sinus2 - min 95 (afibSum rrv pw freq)) else sinus2
    let evAfib : ℕ := if 2 ≤ nAfib then nAfib else 0
    let pvcCount : ℕ := match qrs with | some q => q.pvc_locations.length | none => 0
    let pvcFire : Bool := decide (0 < pvcCount) && decide (0 < r_peaks.length)
    let pvcPct : ℚ := (pvcCount : ℚ) / (r_peaks.length : ℚ) * 100
    let pvc : Verdict :=
      if pvcFire then
        if (10 : ℚ) < pvcPct then ⟨90, .high⟩
        else if (5 : ℚ) < pvcPct then ⟨70, .medium⟩
        else ⟨50, .low⟩
      else ⟨0, .low⟩
    let sinus4 : ℚ :=
      if pvcFire then
        if (10 : ℚ) < pvcPct then sinus3 - 50
        else if (5 : ℚ) < pvcPct then sinus3 - 30
        else sinus3 - 10
      else sinus3
    let evPvc : ℕ := if pvcFire then pvcCount else 0
    let hb := heartBlockStage pw r_peaks.length sinus4
    let lbbbProb : ℚ := match qrs with | some q => q.lbbb_probability | none => 0
    let rbbbProb : ℚ := match qrs with | some q => q.rbbb_probability | none => 0
    let qrsSome : Bool := match qrs with | some _ => true | none => false
    let lFire : Bool := qrsSome && decide ((60 : ℚ) < lbbbProb)
    let rFire : Bool := qrsSome && decide ((60 : ℚ) < rbbbProb)
    let lbbb : Verdict := if lFire then ⟨lbbbProb, .medium⟩ else ⟨0, .low⟩
    let rbbb : Verdict := if rFire then ⟨rbbbProb, .medium⟩ else ⟨0, .low⟩
    let sinus5 : ℚ := if lFire then hb.2.1 - 20 else hb.2.1
    let sinus6 : ℚ := if rFire then sinus5 - 20 else sinus5
    finalizeArrhythmias sinus6 brady tachy afib pvc hb.1 lbbb rbbb
      ⟨0, evBrady, evTachy, evAfib, evPvc, hb.2.2, (if lFire then 1 else 0),
        (if rFire then 1 else 0)⟩

/-- All eight verdicts of a table, sinus first. -/
def verdictList (A : Arrhythmias) : List Verdict :=
  [A.sinus_rhythm, A.bradycardia, A.tachycardia, A.afib, A.pvc, A.heart_block, A.lbbb, A.rbbb]

/-- The seven non-sinus verdicts of a table. -/
def nonSinusList (A : Arrhythmias) : List Verdict :=
  [A.bradycardia, A.tachycardia, A.afib, A.pvc, A.heart_block, A.lbbb, A.rbbb]

/-- Result of `ECGAnalyzer.analyze_ecg` (lines 515-559): either the
error record of lines 529-532 (a fixed message plus the detected R-peak
list, nothing else) or the full record with the five analysis fields
and the fused arrhythmia verdicts. -/
inductive ECGResult where
  | insufficient (error : String) (r_peaks : List ℕ)
  | full (r_peaks : List ℕ) (rr_analysis : Option RRRec) (p_wave_analysis : Option PWaveRec)
      (qrs_analysis : Option QRSRec) (freq_analysis : Option FreqRec)
      (arrhythmias : Arrhythmias)
deriving DecidableEq, Repr

/-- `ECGAnalyzer.analyze_ecg` (lines 515-559).  The library-filter
inputs of the stages are threaded through as parameters (`coarse` for
the Pan-Tompkins coarse peaks of `detect_r_peaks`, `pFiltered` for the
1-10 Hz band-passed signal of `detect_p_waves`, `findPeaksH`,
`findPeaksPlain` and `sqrtQ` for the SciPy/NumPy calls, `P` for the
spectral payload).  The function is total: fewer than 2 detected R-peaks
produce the error record, never an exception. -/
def analyze_ecg (coarse : List ℕ) (pFiltered : List ℚ)
    (findPeaksH : List ℚ → ℚ → ℕ → List ℕ) (findPeaksPlain : List ℚ → List ℕ)
    (sqrtQ : ℚ → ℚ) (P : FreqPayload) (fs : ℕ) (ecg : List ℚ) : ECGResult :=
  let r_peaks := detect_r_peaks ecg fs coarse
  if r_peaks.length < 2 then
    .insufficient ("Insufficient R peaks detected for analysis") r_peaks
  else
    let rr := analyze_rr_intervals fs r_peaks
    let p := detect_p_waves pFiltered findPeaksH sqrtQ fs r_peaks
    let q := analyze_qrs_morphology findPeaksPlain ecg fs r_peaks
    let f := frequency_domain_analysis P ecg r_peaks
    .full r_peaks rr p q f (determine_arrhythmias r_peaks rr p q f)

theorem argmaxIdx_lt_length (xs : List ℚ) (h : xs ≠ []) : argmaxIdx xs < xs.length := by
  match xs with
  | [] => exact absurd rfl h
  | [x] => simp [argmaxIdx]
  | x :: y :: rest =>
      have ih := argmaxIdx_lt_length (y :: rest) (by simp)
      simp only [argmaxIdx, List.length_cons]
      simp only [List.length_cons] at ih
      split
      · omega
      · omega

/-- Elementwise transport of pairwise relations through `filterMap`. -/
theorem pairwise_filterMap_of_rel {α β : Type} {R : α → α → Prop} {S : β → β → Prop}
    (f : α → Option β) {l : List α}
    (hl : l.Pairwise R)
    (hf : ∀ a b va vb, R a b → f a = some va → f b = some vb → S va vb) :
    (l.filterMap f).Pairwise S := by
  induction l with
  | nil => simp
  | cons x xs ih =>
      rcases List.pairwise_cons.mp hl with ⟨hx, hxs⟩
      rw [List.filterMap_cons]
      cases hfx : f x with
      | none => exact ih hxs
      | some v =>
          refine List.pairwise_cons.mpr ⟨?_, ih hxs⟩
          intro v' hv'
          rcases List.mem_filterMap.mp hv' with ⟨b, hb, hfb⟩
          exact hf x b v v' (hx b hb) hfx hfb

theorem length_sliceL (xs : List ℚ) (s e : ℕ) :
    (sliceL xs s e).length = min (e - s) (xs.length - s) := by
  simp [sliceL]

/-- A refined peak keeps the guard bounds of its coarse peak. -/
theorem refineOne_bounds (ecg : List ℚ) (w p v : ℕ)
    (h : refineOne ecg w p = some v) :
    w ≤ p ∧ p - w ≤ v ∧ v < p + max w 1 := by
  unfold refineOne at h
  split at h
  · exact absurd h (by simp)
  · rename_i hg
    push_neg at hg
    obtain ⟨hwp, hlt⟩ := hg
    have hv : v = p - w + argmaxIdx (sliceL ecg (p - w) (min ecg.length (p + w))) := by
      exact (Option.some_inj.mp h).symm
    by_cases hw : w = 0
    · subst hw
      have hplen : p < ecg.length := by omega
      have he : min ecg.length (p + 0) = p := by omega
      have : sliceL ecg (p - 0) (min ecg.length (p + 0)) = [] := by
        rw [he]
        simp [sliceL]
      rw [this] at hv
      simp [argmaxIdx] at hv
      omega
    · have hw1 : 1 ≤ w := Nat.one_le_iff_ne_zero.mpr hw
      have hlen : p + w < ecg.length := by omega
      have he : min ecg.length (p + w) = p + w := by omega
      rw [he] at hv
      have hne : sliceL ecg (p - w) (p + w) ≠ [] := by
        have hl := length_sliceL ecg (p - w) (p + w)
        intro hnil
        rw [hnil] at hl
        simp at hl
        omega
      have harg := argmaxIdx_lt_length _ hne
      have hl := length_sliceL ecg (p - w) (p + w)
      rw [hl] at harg
      have : argmaxIdx (sliceL ecg (p - w) (p + w)) < 2 * w := by omega
      omega

/-- C8.  For every input signal, the index sequence returned by
`detect_r_peaks` is strictly increasing: the coarse peaks delivered by
`scipy.signal.find_peaks` are pairwise at least `int(0.2*rate)` samples
apart (its documented `distance` guarantee, taken as hypothesis `hsep`),
while each refinement search window extends only `int(0.025*rate)`
samples to each side.  `5 ≤ fs` is needed for `find_peaks` to accept the
distance argument at all (`distance ≥ 1`); the analyzer default is 250. -/
theorem detect_r_peaks_strictly_increasing (ecg : List ℚ) (fs : ℕ) (coarse : List ℕ)
    (hfs : 5 ≤ fs)
    (hsep : coarse.Pairwise (fun a b => a + fs / 5 ≤ b)) :
    (detect_r_peaks ecg fs coarse).Pairwise (· < ·) := by
  have hd1 : 1 ≤ fs / 5 := by omega
  have hd2 : 2 * (fs / 40) ≤ fs / 5 := by omega
  unfold detect_r_peaks
  apply pairwise_filterMap_of_rel (refineOne ecg (fs / 40)) hsep
  intro a b va vb hab hfa hfb
  obtain ⟨hwa, hla, hua⟩ := refineOne_bounds ecg (fs / 40) a va hfa
  obtain ⟨hwb, hlb, hub⟩ := refineOne_bounds ecg (fs / 40) b vb hfb
  have hmax : max (fs / 40) 1 = if fs / 40 = 0 then 1 else fs / 40 := by
    split <;> omega
  by_cases h0 : fs / 40 = 0
  · rw [h0] at hua hlb
    simp at hua hlb
    omega
  · have : max (fs / 40) 1 = fs / 40 := by omega
    rw [this] at hua
    omega

/-- C1 counterexample.  A 500-sample flat signal at rate 250 with 12
detected R-peaks: `frequency_domain_analysis` returns nothing at all
(the `len(ecg_signal) < 1000` half of the line-406 guard fires), so in
particular no record with populated `hrv_lf`/`hrv_hf` is produced. -/
theorem freq_len500_counterexample :
    ¬ ∃ rec, frequency_domain_analysis ⟨[], [], [], [], none⟩
        (List.replicate 500 (0 : ℚ))
        [30, 65, 100, 135, 170, 205, 240, 275, 310, 345, 380, 415] = some rec ∧
        rec.hrv_lf ≠ none ∧ rec.hrv_hf ≠ none := by
  rintro ⟨rec, hrec, -⟩
  unfold frequency_domain_analysis at hrec
  rw [if_pos (Or.inl (by rw [List.length_replicate]; norm_num))] at hrec
  exact Option.noConfusion hrec

/-- C1 amended.  A signal shorter than 1000 samples (such as one of
length 500 with 12 R-peaks) makes `frequency_domain_analysis` return
nothing; populated `hrv_lf`/`hrv_hf` fields require both a signal of at
least 1000 samples and at least 10 R-peaks, in which case they are always
populated. -/
theorem freq_hrv_guard (P : FreqPayload) (ecg : List ℚ) (r_peaks : List ℕ) :
    (ecg.length < 1000 → frequency_domain_analysis P ecg r_peaks = none) ∧
      (1000 ≤ ecg.length → 10 ≤ r_peaks.length →
        ∃ rec, frequency_domain_analysis P ecg r_peaks = some rec ∧
          rec.hrv_lf ≠ none ∧ rec.hrv_hf ≠ none) := by
  constructor
  · intro h
    unfold frequency_domain_analysis
    rw [if_pos (Or.inl h)]
  · intro h1 h2
    unfold frequency_domain_analysis
    rw [if_neg (by omega), if_neg (by omega)]
    exact ⟨_, rfl, by simp, by simp⟩

/-- Concrete instantiation of the C1 amended theorem, on both sides of
the length guard (500 and 1000 samples, 12 R-peaks each). -/
theorem freq_hrv_guard_witness :
    ((List.replicate 500 (0 : ℚ)).length < 1000 ∧
      frequency_domain_analysis ⟨[], [], [], [], none⟩ (List.replicate 500 (0 : ℚ))
        [30, 65, 100, 135, 170, 205, 240, 275, 310, 345, 380, 415] = none) ∧
    (1000 ≤ (List.replicate 1000 (0 : ℚ)).length ∧
      10 ≤ ([30, 65, 100, 135, 170, 205, 240, 275, 310, 345, 380, 415] : List ℕ).length ∧
      ∃ rec, frequency_domain_analysis ⟨[], [], [], [], none⟩ (List.replicate 1000 (0 : ℚ))
          [30, 65, 100, 135, 170, 205, 240, 275, 310, 345, 380, 415] = some rec ∧
          rec.hrv_lf ≠ none ∧ rec.hrv_hf ≠ none) :=
  ⟨⟨by rw [List.length_replicate]; norm_num,
    (freq_hrv_guard ⟨[], [], [], [], none⟩ (List.replicate 500 (0 : ℚ))
      [30, 65, 100, 135, 170, 205, 240, 275, 310, 345, 380, 415]).1
      (by rw [List.length_replicate]; norm_num)⟩,
   ⟨by rw [List.length_replicate],
    by norm_num,
    (freq_hrv_guard ⟨[], [], [], [], none⟩ (List.replicate 1000 (0 : ℚ))
      [30, 65, 100, 135, 170, 205, 240, 275, 310, 345, 380, 415]).2
      (by rw [List.length_replicate]) (by norm_num)⟩⟩

/-- C2 counterexample.  A 1200-sample flat signal with 5 R-peaks:
`frequency_domain_analysis` returns nothing at all, not a record whose
raw-spectrum fields are populated and whose HRV fields are null. -/
theorem freq_few_peaks_counterexample :
    ¬ ∃ rec, frequency_domain_analysis ⟨[], [], [], [], none⟩
        (List.replicate 1200 (0 : ℚ)) [100, 200, 300, 400, 500] = some rec := by
  rintro ⟨rec, hrec⟩
  unfold frequency_domain_analysis at hrec
  rw [if_pos (Or.inr (by norm_num))] at hrec
  exact Option.noConfusion hrec

/-- C2 amended.  For every signal and every R-peak set with fewer than 10
peaks, `frequency_domain_analysis` returns nothing at all: the line-406
guard already rejects such inputs, so the record of lines 425-434 with
populated raw-spectrum fields and explicitly null HRV/wavelet fields is
unreachable. -/
theorem freq_few_peaks_none (P : FreqPayload) (ecg : List ℚ) (r_peaks : List ℕ)
    (h : r_peaks.length < 10) :
    frequency_domain_analysis P ecg r_peaks = none := by
  unfold frequency_domain_analysis
  rw [if_pos (Or.inr h)]

/-- Concrete instantiation of the C2 amended theorem (5 peaks). -/
theorem freq_few_peaks_none_witness :
    ([100, 200, 300, 400, 500] : List ℕ).length < 10 ∧
      frequency_domain_analysis ⟨[], [], [], [], none⟩ (List.replicate 1200 (0 : ℚ))
        [100, 200, 300, 400, 500] = none :=
  ⟨by norm_num,
    freq_few_peaks_none ⟨[], [], [], [], none⟩ (List.replicate 1200 (0 : ℚ))
      [100, 200, 300, 400, 500] (by norm_num)⟩

/-- C10.  When `analyze_rr_intervals` is called with exactly 2 R-peaks
(the stated minimum) there is one RR interval and zero successive
differences, so the RMSSD averages an empty array and the pNN50 divides a
zero count by zero: a record is still returned, but its `rmssd` and
`pnn50` fields are NaN (modelled by `none`), hence not well-defined
numbers. -/
theorem analyze_rr_two_peaks_nan (fs : ℕ) (r_peaks : List ℕ) (h : r_peaks.length = 2) :
    ∃ rec, analyze_rr_intervals fs r_peaks = some rec ∧
      rec.rmssd_sq = none ∧ rec.pnn50 = none := by
  rcases r_peaks with _ | ⟨a, rest⟩
  · simp at h
  rcases rest with _ | ⟨b, rest2⟩
  · simp at h
  rcases rest2 with _ | ⟨c, rest3⟩
  · exact ⟨_, rfl, rfl, rfl⟩
  · simp at h

/-- Concrete instantiation of the C10 theorem at the peak list `[10, 300]`
and the default rate 250. -/
theorem analyze_rr_two_peaks_nan_witness :
    ([10, 300] : List ℕ).length = 2 ∧
      ∃ rec, analyze_rr_intervals 250 [10, 300] = some rec ∧
        rec.rmssd_sq = none ∧ rec.pnn50 = none :=
  ⟨rfl, analyze_rr_two_peaks_nan 250 [10, 300] rfl⟩

theorem medianQ_pos (l : List ℚ) (hpos : ∀ x ∈ l, 0 < x) (m : ℚ)
    (hm : medianQ l = some m) : 0 < m := by
  simp only [medianQ] at hm
  have hmem : ∀ x ∈ l.insertionSort (· ≤ ·), 0 < x := by
    intro x hx
    exact hpos x ((List.mem_insertionSort _).mp hx)
  split at hm
  · exact absurd hm (by simp)
  · rename_i hlen
    split at hm
    · rename_i hodd
      have hlt : (l.insertionSort (· ≤ ·)).length / 2 < (l.insertionSort (· ≤ ·)).length := by
        omega
      rw [List.getD_eq_getElem _ _ hlt] at hm
      have hms : m = (l.insertionSort (· ≤ ·))[(l.insertionSort (· ≤ ·)).length / 2] :=
        (Option.some_inj.mp hm).symm
      rw [hms]
      exact hmem _ (List.getElem_mem hlt)
    · rename_i heven
      have hge2 : 2 ≤ (l.insertionSort (· ≤ ·)).length := by omega
      have h1 : (l.insertionSort (· ≤ ·)).length / 2 - 1 < (l.insertionSort (· ≤ ·)).length := by
        omega
      have h2 : (l.insertionSort (· ≤ ·)).length / 2 < (l.insertionSort (· ≤ ·)).length := by
        omega
      rw [List.getD_eq_getElem _ _ h1, List.getD_eq_getElem _ _ h2] at hm
      have ha := hmem _ (List.getElem_mem h1)
      have hb := hmem _ (List.getElem_mem h2)
      have : m = ((l.insertionSort (· ≤ ·))[(l.insertionSort (· ≤ ·)).length / 2 - 1] +
          (l.insertionSort (· ≤ ·))[(l.insertionSort (· ≤ ·)).length / 2]) / 2 :=
        (Option.some_inj.mp hm).symm
      rw [this]
      positivity

theorem getD_pairwise_lt_inj (l : List ℕ) (hmono : l.Pairwise (· < ·)) (i j : ℕ)
    (hi : i < l.length) (hj : j < l.length) (h : l.getD i 0 = l.getD j 0) : i = j := by
  rw [List.getD_eq_getElem _ _ hi, List.getD_eq_getElem _ _ hj] at h
  by_contra hne
  rcases Nat.lt_or_ge i j with hlt | hge
  · exact absurd h (Nat.ne_of_lt (List.pairwise_iff_getElem.mp hmono i j hi hj hlt))
  · have hlt' : j < i := by omega
    exact absurd h.symm (Nat.ne_of_lt (List.pairwise_iff_getElem.mp hmono j i hj hi hlt'))

theorem getD_map_lt {α β : Type} (l : List α) (f : α → β) (i : ℕ) (hi : i < l.length)
    (d : β) (d' : α) : (l.map f).getD i d = f (l.getD i d') := by
  rw [List.getD_eq_getElem _ _ (by simpa using hi), List.getD_eq_getElem _ _ hi]
  simp

theorem filter_eraseIdx_of_eq_false {α : Type} (p : α → Bool) (l : List α) (i : ℕ)
    (hi : i < l.length) (hp : p l[i] = false) :
    l.filter p = (l.eraseIdx i).filter p := by
  conv_lhs =>
    rw [show l = l.take i ++ l[i] :: l.drop (i + 1) from by
      rw [← List.drop_eq_getElem_cons hi, List.take_append_drop]]
  rw [List.filter_append, List.filter_cons, hp, List.eraseIdx_eq_take_drop_succ,
    List.filter_append]
  simp

theorem analyze_qrs_eq (findPeaksPlain : List ℚ → List ℕ) (ecg : List ℚ) (fs : ℕ)
    (r_peaks : List ℕ) (h2 : 2 ≤ r_peaks.length) :
    ∃ rec, analyze_qrs_morphology findPeaksPlain ecg fs r_peaks = some rec ∧
      rec.qrs_durations = qrsDurations ecg fs r_peaks ∧
      rec.qrs_areas = qrsAreas ecg fs r_peaks ∧
      rec.qrs_amplitudes = qrsAmplitudes ecg fs r_peaks ∧
      rec.abnormal_qrs = (List.range r_peaks.length).map (abnormalQrsAt ecg fs r_peaks) ∧
      rec.pvc_locations = pvcLocations ecg fs r_peaks := by
  unfold analyze_qrs_morphology
  rw [if_neg (by omega)]
  exact ⟨_, rfl, rfl, rfl, rfl, rfl, rfl⟩

theorem pvcCondAt_iff (ecg : List ℚ) (fs : ℕ) (r_peaks : List ℕ) (i : ℕ) :
    pvcCondAt ecg fs r_peaks i = true ↔
      ∃ md man, medianDuration ecg fs r_peaks = some md ∧
        medianAreaNorm ecg fs r_peaks = some man ∧
        ((r_peaks.getD i 0 : ℚ) - (r_peaks.getD (i - 1) 0 : ℚ)) / (fs : ℚ) < 0.8 * md ∧
        1.2 * md < ((r_peaks.getD (i + 1) 0 : ℚ) - (r_peaks.getD i 0 : ℚ)) / (fs : ℚ) ∧
        (0.12 : ℚ) < (qrsDurations ecg fs r_peaks).getD i 0 ∧
        ((qrsAreasNorm ecg fs r_peaks).getD i 0 < 0.7 * man ∨
          1.3 * man < (qrsAreasNorm ecg fs r_peaks).getD i 0) := by
  unfold pvcCondAt
  cases hmd : medianDuration ecg fs r_peaks with
  | none => simp
  | some md =>
      cases hman : medianAreaNorm ecg fs r_peaks with
      | none => simp
      | some man =>
          simp only [Bool.and_eq_true, Bool.or_eq_true, decide_eq_true_eq,
            Option.some_inj]
          constructor
          · rintro ⟨⟨⟨h1, h2⟩, h3⟩, h4⟩
            exact ⟨md, man, rfl, rfl, h1, h2, h3, h4⟩
          · rintro ⟨md', man', hmd', hman', h1, h2, h3, h4⟩
            subst hmd'
            subst hman'
            exact ⟨⟨⟨h1, h2⟩, h3⟩, h4⟩

/-- C3.  For a signal and a strictly increasing R-peak set with at least
2 peaks, an interior beat's R-peak index is in `pvc_locations` exactly
when all four tests of lines 311-315 hold: preceding RR below 0.8 times
the median QRS duration of valid beats, following RR above 1.2 times
that median, QRS duration above 0.12 s, and normalized area outside
[0.7, 1.3] times the median normalized area.  `17 ≤ fs` keeps the
60 ms half-window nonzero (at smaller rates the source would raise on an
empty `argmin`); the default rate is 250. -/
theorem pvc_locations_iff (findPeaksPlain : List ℚ → List ℕ) (ecg : List ℚ)
    (fs : ℕ) (r_peaks : List ℕ) (hfs : 17 ≤ fs) (h2 : 2 ≤ r_peaks.length)
    (hmono : r_peaks.Pairwise (· < ·)) (i : ℕ) (hi0 : 0 < i)
    (hi1 : i + 1 < r_peaks.length) :
    ∃ rec, analyze_qrs_morphology findPeaksPlain ecg fs r_peaks = some rec ∧
      rec.pvc_locations = pvcLocations ecg fs r_peaks ∧
      (r_peaks.getD i 0 ∈ pvcLocations ecg fs r_peaks ↔
        ∃ md man, medianDuration ecg fs r_peaks = some md ∧
          medianAreaNorm ecg fs r_peaks = some man ∧
          ((r_peaks.getD i 0 : ℚ) - (r_peaks.getD (i - 1) 0 : ℚ)) / (fs : ℚ) < 0.8 * md ∧
          1.2 * md < ((r_peaks.getD (i + 1) 0 : ℚ) - (r_peaks.getD i 0 : ℚ)) / (fs : ℚ) ∧
          (0.12 : ℚ) < (qrsDurations ecg fs r_peaks).getD i 0 ∧
          ((qrsAreasNorm ecg fs r_peaks).getD i 0 < 0.7 * man ∨
            1.3 * man < (qrsAreasNorm ecg fs r_peaks).getD i 0)) := by
  obtain ⟨rec, hres, -, -, -, -, hpvc⟩ :=
    analyze_qrs_eq findPeaksPlain ecg fs r_peaks h2
  refine ⟨rec, hres, hpvc, ?_⟩
  rw [← pvcCondAt_iff]
  unfold pvcLocations
  constructor
  · intro hmem
    rcases List.mem_map.mp hmem with ⟨j, hjf, hji⟩
    rcases List.mem_filter.mp hjf with ⟨hjr, hcond⟩
    have hjlen : j < r_peaks.length := List.mem_range.mp hjr
    have heq : j = i :=
      getD_pairwise_lt_inj r_peaks hmono j i hjlen (by omega) hji
    subst heq
    simp only [Bool.and_eq_true] at hcond
    exact hcond.2
  · intro hcond
    refine List.mem_map.mpr ⟨i, List.mem_filter.mpr ⟨List.mem_range.mpr (by omega), ?_⟩, rfl⟩
    simp only [Bool.and_eq_true, decide_eq_true_eq]
    exact ⟨⟨hi0, hi1⟩, hcond⟩

set_option maxRecDepth 10000 in
/-- C4 counterexample.  Signal of 66 samples, zero except a unit spike at
index 50, rate 250, peaks `[5, 50]`: the window of beat 0 runs off the
left edge (`5 < 15`), yet its `abnormal_qrs` flag ends up `true` —
beat 0's normalized area stays 0 and the test `0 < 0.5 * median` of
line 300 fires because beat 1 gives a positive median normalized area. -/
theorem qrs_skipped_abnormal_counterexample :
    ∃ rec, analyze_qrs_morphology (fun _ => []) ((List.replicate 66 (0 : ℚ)).set 50 1)
        250 [5, 50] = some rec ∧
      (5 : ℕ) < qrsHalfWidth 250 ∧ rec.abnormal_qrs.getD 0 false = true :=
  ⟨_, rfl, by decide, by with_unfolding_all decide⟩

/-- C4 amended.  A beat whose ±60 ms window runs off either signal edge
keeps its zero per-beat metrics (duration, area, amplitude, normalized
area) and contributes nothing to the positive-entry filters that feed the
two median baselines; but its `abnormal_qrs` flag is not left `false`:
it equals `true` exactly when the median normalized area is defined
(that is, whenever any beat of the run has positive normalized area),
because line 300 compares the skipped beat's zero area against
`0.5 * median`. -/
theorem qrs_skipped_beat (findPeaksPlain : List ℚ → List ℕ) (ecg : List ℚ) (fs : ℕ)
    (r_peaks : List ℕ) (hfs : 17 ≤ fs) (h2 : 2 ≤ r_peaks.length) (i : ℕ)
    (hi : i < r_peaks.length)
    (hskip : r_peaks.getD i 0 < qrsHalfWidth fs ∨
      ecg.length ≤ r_peaks.getD i 0 + qrsHalfWidth fs) :
    ∃ rec, analyze_qrs_morphology findPeaksPlain ecg fs r_peaks = some rec ∧
      rec.qrs_durations.getD i 0 = 0 ∧ rec.qrs_areas.getD i 0 = 0 ∧
      rec.qrs_amplitudes.getD i 0 = 0 ∧ (qrsAreasNorm ecg fs r_peaks).getD i 0 = 0 ∧
      (qrsDurations ecg fs r_peaks).filter (fun q => decide (0 < q)) =
        ((qrsDurations ecg fs r_peaks).eraseIdx i).filter (fun q => decide (0 < q)) ∧
      (qrsAreasNorm ecg fs r_peaks).filter (fun q => decide (0 < q)) =
        ((qrsAreasNorm ecg fs r_peaks).eraseIdx i).filter (fun q => decide (0 < q)) ∧
      rec.abnormal_qrs.getD i false = (medianAreaNorm ecg fs r_peaks).isSome := by
  have hbm : beatMetrics ecg fs (r_peaks.getD i 0) = (0, 0, 0) := by
    unfold beatMetrics
    rw [if_pos hskip]
  have hdur : (qrsDurations ecg fs r_peaks).getD i 0 = 0 := by
    unfold qrsDurations
    rw [getD_map_lt r_peaks _ i hi 0 0, hbm]
  have harea : (qrsAreas ecg fs r_peaks).getD i 0 = 0 := by
    unfold qrsAreas
    rw [getD_map_lt r_peaks _ i hi 0 0, hbm]
  have hamp : (qrsAmplitudes ecg fs r_peaks).getD i 0 = 0 := by
    unfold qrsAmplitudes
    rw [getD_map_lt r_peaks _ i hi 0 0, hbm]
  have hnorm : (qrsAreasNorm ecg fs r_peaks).getD i 0 = 0 := by
    unfold qrsAreasNorm
    rw [getD_map_lt r_peaks _ i hi 0 0, hbm]
    norm_num
  obtain ⟨rec, hres, hdurEq, hareaEq, hampEq, habnEq, -⟩ :=
    analyze_qrs_eq findPeaksPlain ecg fs r_peaks h2
  refine ⟨rec, hres, ?_, ?_, ?_, hnorm, ?_, ?_, ?_⟩
  · rw [hdurEq]
    exact hdur
  · rw [hareaEq]
    exact harea
  · rw [hampEq]
    exact hamp
  · apply filter_eraseIdx_of_eq_false _ _ i (by simpa [qrsDurations] using hi)
    rw [← List.getD_eq_getElem _ 0 (by simpa [qrsDurations] using hi), hdur]
    simp
  · apply filter_eraseIdx_of_eq_false _ _ i (by simpa [qrsAreasNorm] using hi)
    rw [← List.getD_eq_getElem _ 0 (by simpa [qrsAreasNorm] using hi), hnorm]
    simp
  · rw [habnEq]
    rw [getD_map_lt (List.range r_peaks.length) _ i (by simpa using hi) false 0]
    rw [List.getD_eq_getElem _ _ (by simpa using hi), List.getElem_range]
    unfold abnormalQrsAt
    rw [hdur, hnorm]
    cases hman : medianAreaNorm ecg fs r_peaks with
    | none =>
        simp
        norm_num
    | some m =>
        have hmpos : 0 < m := by
          refine medianQ_pos _ ?_ m hman
          intro x hx
          have := (List.mem_filter.mp hx).2
          exact decide_eq_true_eq.mp this
        simp only [Option.isSome_some]
        have hq1 : decide ((0.12 : ℚ) < 0) = false := by norm_num
        have hq2 : decide (1.5 * m < (0 : ℚ)) = false := by
          simp only [decide_eq_false_iff_not]
          intro hcon
          nlinarith
        have hq3 : decide ((0 : ℚ) < 0.5 * m) = true := by
          simp only [decide_eq_true_eq]
          nlinarith
        rw [hq1, hq2, hq3]
        rfl

/-- Concrete instantiation of the C4 amended theorem at the input of the
counterexample: beat 0 of peaks `[5, 50]` with the 66-sample spiked
signal. -/
theorem qrs_skipped_beat_witness :
    (17 ≤ 250 ∧ 2 ≤ ([5, 50] : List ℕ).length ∧
      ([5, 50] : List ℕ).getD 0 0 < qrsHalfWidth 250) ∧
    ∃ rec, analyze_qrs_morphology (fun _ => []) ((List.replicate 66 (0 : ℚ)).set 50 1)
        250 [5, 50] = some rec ∧
      rec.qrs_durations.getD 0 0 = 0 ∧ rec.qrs_areas.getD 0 0 = 0 ∧
      rec.qrs_amplitudes.getD 0 0 = 0 ∧
      (qrsAreasNorm ((List.replicate 66 (0 : ℚ)).set 50 1) 250 [5, 50]).getD 0 0 = 0 ∧
      (qrsDurations ((List.replicate 66 (0 : ℚ)).set 50 1) 250 [5, 50]).filter
          (fun q => decide (0 < q)) =
        ((qrsDurations ((List.replicate 66 (0 : ℚ)).set 50 1) 250 [5, 50]).eraseIdx 0).filter
          (fun q => decide (0 < q)) ∧
      (qrsAreasNorm ((List.replicate 66 (0 : ℚ)).set 50 1) 250 [5, 50]).filter
          (fun q => decide (0 < q)) =
        ((qrsAreasNorm ((List.replicate 66 (0 : ℚ)).set 50 1) 250 [5, 50]).eraseIdx 0).filter
          (fun q => decide (0 < q)) ∧
      rec.abnormal_qrs.getD 0 false =
        (medianAreaNorm ((List.replicate 66 (0 : ℚ)).set 50 1) 250 [5, 50]).isSome :=
  ⟨⟨by norm_num, by norm_num, by decide⟩,
    qrs_skipped_beat (fun _ => []) ((List.replicate 66 (0 : ℚ)).set 50 1) 250 [5, 50]
      (by norm_num) (by norm_num) 0 (by norm_num) (Or.inl (by decide))⟩

/-- Concrete instantiation of the C3 theorem: strictly increasing peaks
`[20, 50, 80]` on a 100-sample signal with a unit spike at index 50,
interior beat 1. -/
theorem pvc_locations_iff_witness :
    (17 ≤ 250 ∧ 2 ≤ ([20, 50, 80] : List ℕ).length ∧
      ([20, 50, 80] : List ℕ).Pairwise (· < ·) ∧ 0 < 1 ∧ 1 + 1 < 3) ∧
    ∃ rec, analyze_qrs_morphology (fun _ => [])
        ((List.replicate 100 (0 : ℚ)).set 50 1) 250 [20, 50, 80] = some rec ∧
      rec.pvc_locations = pvcLocations ((List.replicate 100 (0 : ℚ)).set 50 1) 250 [20, 50, 80] ∧
      (([20, 50, 80] : List ℕ).getD 1 0 ∈
          pvcLocations ((List.replicate 100 (0 : ℚ)).set 50 1) 250 [20, 50, 80] ↔
        ∃ md man,
          medianDuration ((List.replicate 100 (0 : ℚ)).set 50 1) 250 [20, 50, 80] = some md ∧
          medianAreaNorm ((List.replicate 100 (0 : ℚ)).set 50 1) 250 [20, 50, 80] = some man ∧
          ((([20, 50, 80] : List ℕ).getD 1 0 : ℚ) - (([20, 50, 80] : List ℕ).getD 0 0 : ℚ)) / (250 : ℚ) <
            0.8 * md ∧
          1.2 * md <
            ((([20, 50, 80] : List ℕ).getD 2 0 : ℚ) - (([20, 50, 80] : List ℕ).getD 1 0 : ℚ)) / (250 : ℚ) ∧
          (0.12 : ℚ) <
            (qrsDurations ((List.replicate 100 (0 : ℚ)).set 50 1) 250 [20, 50, 80]).getD 1 0 ∧
          ((qrsAreasNorm ((List.replicate 100 (0 : ℚ)).set 50 1) 250 [20, 50, 80]).getD 1 0 <
              0.7 * man ∨
            1.3 * man <
              (qrsAreasNorm ((List.replicate 100 (0 : ℚ)).set 50 1) 250 [20, 50, 80]).getD 1 0)) :=
  ⟨⟨by norm_num, by norm_num, by decide, by norm_num, by norm_num⟩,
    pvc_locations_iff (fun _ => []) ((List.replicate 100 (0 : ℚ)).set 50 1) 250 [20, 50, 80]
      (by norm_num) (by norm_num) (by decide) 1 (by norm_num) (by norm_num)⟩

/-- Concrete instantiation of the C8 theorem: a 200-sample flat signal at
rate 250 with coarse peaks 100 and 160, which are at least
`int(0.2*250) = 50` samples apart. -/
theorem detect_r_peaks_strictly_increasing_witness :
    (5 ≤ 250 ∧ ([100, 160] : List ℕ).Pairwise (fun a b => a + 250 / 5 ≤ b)) ∧
      (detect_r_peaks (List.replicate 200 (0 : ℚ)) 250 [100, 160]).Pairwise (· < ·) :=
  ⟨⟨by norm_num, by decide⟩,
    detect_r_peaks_strictly_increasing (List.replicate 200 (0 : ℚ)) 250 [100, 160]
      (by norm_num) (by decide)⟩

theorem clampVerdict_range (v : Verdict) :
    0 ≤ (clampVerdict v).probability ∧ (clampVerdict v).probability ≤ 100 := by
  unfold clampVerdict
  exact ⟨le_max_left 0 _, max_le (by norm_num) (min_le_left 100 _)⟩

theorem finalize_range (sinus : ℚ) (b t a p h l r : Verdict) (ev : EvidenceCounts) :
    ∀ v ∈ verdictList (finalizeArrhythmias sinus b t a p h l r ev),
      0 ≤ v.probability ∧ v.probability ≤ 100 := by
  intro v hv
  have hs : 0 ≤ max 0 (min 100 sinus) ∧ max 0 (min 100 sinus) ≤ 100 :=
    ⟨le_max_left 0 _, max_le (by norm_num) (min_le_left 100 _)⟩
  simp only [verdictList, finalizeArrhythmias, List.mem_cons, List.not_mem_nil,
    or_false] at hv
  rcases hv with rfl | rfl | rfl | rfl | rfl | rfl | rfl | rfl
  · dsimp only
    split
    · exact ⟨le_trans (by norm_num) (le_max_left 10 _), max_le (by norm_num) hs.2⟩
    · exact hs
  all_goals exact clampVerdict_range _

theorem finalize_floor (sinus : ℚ) (b t a p h l r : Verdict) (ev : EvidenceCounts)
    (hex : ∃ v ∈ nonSinusList (finalizeArrhythmias sinus b t a p h l r ev),
      (70 : ℚ) < v.probability) :
    10 ≤ (finalizeArrhythmias sinus b t a p h l r ev).sinus_rhythm.probability := by
  obtain ⟨v, hv, h70⟩ := hex
  simp only [nonSinusList, finalizeArrhythmias, List.mem_cons, List.not_mem_nil,
    or_false] at hv
  have hAny : anyOver70 (clampVerdict b) (clampVerdict t) (clampVerdict a)
      (clampVerdict p) (clampVerdict h) (clampVerdict l) (clampVerdict r) = true := by
    simp only [anyOver70, Bool.or_eq_true, decide_eq_true_eq]
    rcases hv with rfl | rfl | rfl | rfl | rfl | rfl | rfl
    · exact Or.inl (Or.inl (Or.inl (Or.inl (Or.inl (Or.inl h70)))))
    · exact Or.inl (Or.inl (Or.inl (Or.inl (Or.inl (Or.inr h70)))))
    · exact Or.inl (Or.inl (Or.inl (Or.inl (Or.inr h70))))
    · exact Or.inl (Or.inl (Or.inl (Or.inr h70)))
    · exact Or.inl (Or.inl (Or.inr h70))
    · exact Or.inl (Or.inr h70)
    · exact Or.inr h70
  simp only [finalizeArrhythmias, hAny, if_true]
  exact le_max_left 10 _

theorem determine_arrhythmias_cases (r_peaks : List ℕ) (rr : Option RRRec)
    (pw : Option PWaveRec) (qrs : Option QRSRec) (freq : Option FreqRec) :
    determine_arrhythmias r_peaks rr pw qrs freq = initArrhythmias ∨
      ∃ s b t a p h l rb ev, determine_arrhythmias r_peaks rr pw qrs freq =
        finalizeArrhythmias s b t a p h l rb ev := by
  cases rr with
  | none => exact Or.inl rfl
  | some rrv => exact Or.inr ⟨_, _, _, _, _, _, _, _, _, rfl⟩

/-- C7.  Every probability in the verdict set returned by
`determine_arrhythmias` lies in [0, 100] (the clamp of lines 701-702),
and whenever some non-sinus verdict strictly exceeds 70 the final
sinus_rhythm probability is at least 10 (the floor of lines 705-706). -/
theorem determine_arrhythmias_probability_bounds (r_peaks : List ℕ) (rr : Option RRRec)
    (pw : Option PWaveRec) (qrs : Option QRSRec) (freq : Option FreqRec) :
    (∀ v ∈ verdictList (determine_arrhythmias r_peaks rr pw qrs freq),
      0 ≤ v.probability ∧ v.probability ≤ 100) ∧
    ((∃ v ∈ nonSinusList (determine_arrhythmias r_peaks rr pw qrs freq),
        (70 : ℚ) < v.probability) →
      10 ≤ (determine_arrhythmias r_peaks rr pw qrs freq).sinus_rhythm.probability) := by
  rcases determine_arrhythmias_cases r_peaks rr pw qrs freq with heq |
    ⟨s, b, t, a, p, h, l, rb, ev, heq⟩
  · rw [heq]
    constructor
    · intro v hv
      simp only [verdictList, initArrhythmias, List.mem_cons, List.not_mem_nil,
        or_false] at hv
      rcases hv with rfl | rfl | rfl | rfl | rfl | rfl | rfl | rfl <;> norm_num
    · rintro ⟨v, hv, h70⟩
      simp only [nonSinusList, initArrhythmias, List.mem_cons, List.not_mem_nil,
        or_false] at hv
      rcases hv with rfl | rfl | rfl | rfl | rfl | rfl | rfl <;> norm_num at h70
  · rw [heq]
    exact ⟨finalize_range s b t a p h l rb ev, finalize_floor s b t a p h l rb ev⟩

/-- Concrete instantiation of the C7 theorem: a bradycardic run whose
verdict table has the bradycardia verdict at probability 90, so the
sinus floor hypothesis is satisfied. -/
theorem determine_arrhythmias_probability_bounds_witness :
    (∃ v ∈ nonSinusList (determine_arrhythmias [10, 260]
        (some ⟨[250], [1], some 24, some 0, none, none, false, true, false⟩)
        none none none), (70 : ℚ) < v.probability) ∧
      10 ≤ (determine_arrhythmias [10, 260]
        (some ⟨[250], [1], some 24, some 0, none, none, false, true, false⟩)
        none none none).sinus_rhythm.probability :=
  have hex : ∃ v ∈ nonSinusList (determine_arrhythmias [10, 260]
      (some ⟨[250], [1], some 24, some 0, none, none, false, true, false⟩)
      none none none), (70 : ℚ) < v.probability :=
    ⟨⟨90, Confidence.high⟩, by with_unfolding_all decide, by norm_num⟩
  ⟨hex, (determine_arrhythmias_probability_bounds [10, 260]
      (some ⟨[250], [1], some 24, some 0, none, none, false, true, false⟩)
      none none none).2 hex⟩

theorem determine_some_afib_eq (r_peaks : List ℕ) (rrv : RRRec) (pw : Option PWaveRec)
    (qrs : Option QRSRec) (freq : Option FreqRec) :
    (determine_arrhythmias r_peaks (some rrv) pw qrs freq).afib =
      clampVerdict (if 2 ≤ afibCount rrv pw freq then
        ⟨min 95 (afibSum rrv pw freq),
          if afibCount rrv pw freq = 2 then Confidence.medium else Confidence.high⟩
      else ⟨0, Confidence.low⟩) := rfl

theorem afibFired1_score (pw : Option PWaveRec) (h : afibFired1 pw = true) :
    (50 : ℚ) < pwScoreVal pw := by
  cases pw with
  | none => simp [afibFired1] at h
  | some p => simpa [afibFired1, pwScoreVal] using h

theorem afibFired3_score (freq : Option FreqRec) (h : afibFired3 freq = true) :
    (50 : ℚ) < freqScoreVal freq := by
  cases freq with
  | none => simp [afibFired3] at h
  | some f =>
      cases hf : f.afib_probability with
      | none => simp [afibFired3, hf] at h
      | some a =>
          simp only [afibFired3, hf, decide_eq_true_eq] at h
          simpa [freqScoreVal, hf] using h

theorem afibCount_le_three (rrv : RRRec) (pw : Option PWaveRec) (freq : Option FreqRec) :
    afibCount rrv pw freq ≤ 3 := by
  unfold afibCount
  cases afibFired1 pw <;> cases afibFired2 rrv <;> cases afibFired3 freq <;> simp

theorem afibSum_gt (rrv : RRRec) (pw : Option PWaveRec) (freq : Option FreqRec)
    (h : 2 ≤ afibCount rrv pw freq) : 35 < afibSum rrv pw freq := by
  unfold afibCount at h
  unfold afibSum
  cases h1 : afibFired1 pw <;> cases h2 : afibFired2 rrv <;> cases h3 : afibFired3 freq <;>
    rw [h1, h2, h3] at h <;>
    simp only [Bool.false_eq_true, if_false, if_true, reduceIte] at h ⊢
  · omega
  · omega
  · omega
  · have s3 := afibFired3_score freq h3
    nlinarith
  · omega
  · have s1 := afibFired1_score pw h1
    have s3 := afibFired3_score freq h3
    nlinarith
  · have s1 := afibFired1_score pw h1
    nlinarith
  · have s1 := afibFired1_score pw h1
    have s3 := afibFired3_score freq h3
    nlinarith

/-- C5.  In `determine_arrhythmias` the AFib verdict has nonzero
probability only when at least 2 of the three evidence sources fired
(P-wave score > 50; RR irregularity with RMSSD > 0.1; frequency score
> 50); its confidence is `medium` exactly when 2 fired and `high`
exactly when all 3 fired; and with at least 2 fired its probability
equals `min(95, weighted sum of the fired contributions)`, which the
final clamp leaves unchanged.  Stated with the RR record present
(`some rrv`), as `analyze_ecg` guarantees whenever the classifier
runs. -/
theorem afib_fusion (r_peaks : List ℕ) (rrv : RRRec) (pw : Option PWaveRec)
    (qrs : Option QRSRec) (freq : Option FreqRec) :
    ((determine_arrhythmias r_peaks (some rrv) pw qrs freq).afib.probability ≠ 0 →
      2 ≤ afibCount rrv pw freq) ∧
    ((determine_arrhythmias r_peaks (some rrv) pw qrs freq).afib.confidence =
        Confidence.medium ↔ afibCount rrv pw freq = 2) ∧
    ((determine_arrhythmias r_peaks (some rrv) pw qrs freq).afib.confidence =
        Confidence.high ↔ afibCount rrv pw freq = 3) ∧
    (2 ≤ afibCount rrv pw freq →
      (determine_arrhythmias r_peaks (some rrv) pw qrs freq).afib.probability =
        min 95 (afibSum rrv pw freq)) := by
  rw [determine_some_afib_eq]
  by_cases h2 : 2 ≤ afibCount rrv pw freq
  · have hsum := afibSum_gt rrv pw freq h2
    have hle3 := afibCount_le_three rrv pw freq
    rw [if_pos h2]
    have hprob : (clampVerdict ⟨min 95 (afibSum rrv pw freq),
        if afibCount rrv pw freq = 2 then Confidence.medium else Confidence.high⟩).probability =
        min 95 (afibSum rrv pw freq) := by
      unfold clampVerdict
      dsimp only
      have hub : min 95 (afibSum rrv pw freq) ≤ 100 :=
        le_trans (min_le_left _ _) (by norm_num)
      have hlb : (0 : ℚ) ≤ min 95 (afibSum rrv pw freq) :=
        le_of_lt (lt_min (by norm_num) (by linarith))
      rw [min_eq_right hub, max_eq_right hlb]
    have hconf : (clampVerdict ⟨min 95 (afibSum rrv pw freq),
        if afibCount rrv pw freq = 2 then Confidence.medium else Confidence.high⟩).confidence =
        if afibCount rrv pw freq = 2 then Confidence.medium else Confidence.high := rfl
    refine ⟨fun _ => h2, ?_, ?_, fun _ => hprob⟩
    · rw [hconf]
      by_cases hn : afibCount rrv pw freq = 2
      · simp [hn]
      · rw [if_neg hn]
        constructor
        · intro hcon
          exact absurd hcon (by simp)
        · intro hcon
          exact absurd hcon hn
    · rw [hconf]
      by_cases hn : afibCount rrv pw freq = 2
      · rw [if_pos hn]
        constructor
        · intro hcon
          exact absurd hcon (by simp)
        · intro hcon
          omega
      · rw [if_neg hn]
        constructor
        · intro _
          omega
        · intro _
          rfl
  · rw [if_neg h2]
    have hprob : (clampVerdict ⟨0, Confidence.low⟩).probability = 0 := by
      unfold clampVerdict
      norm_num
    have hconf : (clampVerdict ⟨0, Confidence.low⟩).confidence = Confidence.low := rfl
    refine ⟨fun hcon => absurd hprob hcon, ?_, ?_, fun hcon => absurd hcon h2⟩
    · rw [hconf]
      constructor
      · intro hcon
        exact absurd hcon (by simp)
      · intro hcon
        exact absurd (by omega : 2 ≤ afibCount rrv pw freq) h2
    · rw [hconf]
      constructor
      · intro hcon
        exact absurd hcon (by simp)
      · intro hcon
        exact absurd (by omega : 2 ≤ afibCount rrv pw freq) h2

/-- Concrete instantiation of the C5 theorem: P-wave score 80 (> 50) and
RR irregularity with positive squared RMSSD fire, the frequency source
does not, so exactly 2 sources fire and the probability is the clamped
weighted sum. -/
theorem afib_fusion_witness :
    2 ≤ afibCount ⟨[1], [1], none, none, some 1, none, true, false, false⟩
        (some ⟨[true, false], [1/10, 0], [10], 80⟩) none ∧
      (determine_arrhythmias [5, 6]
        (some ⟨[1], [1], none, none, some 1, none, true, false, false⟩)
        (some ⟨[true, false], [1/10, 0], [10], 80⟩) none none).afib.probability =
        min 95 (afibSum ⟨[1], [1], none, none, some 1, none, true, false, false⟩
          (some ⟨[true, false], [1/10, 0], [10], 80⟩) none) :=
  ⟨by with_unfolding_all decide,
    (afib_fusion [5, 6] ⟨[1], [1], none, none, some 1, none, true, false, false⟩
      (some ⟨[true, false], [1/10, 0], [10], 80⟩) none none).2.2.2
      (by with_unfolding_all decide)⟩

theorem detect_p_waves_length (filtered : List ℚ) (findPeaksH : List ℚ → ℚ → ℕ → List ℕ)
    (sqrtQ : ℚ → ℚ) (fs : ℕ) (r_peaks : List ℕ) (rec : PWaveRec)
    (h : detect_p_waves filtered findPeaksH sqrtQ fs r_peaks = some rec) :
    rec.p_present.length = r_peaks.length := by
  unfold detect_p_waves at h
  split at h
  · exact Option.noConfusion h
  · rw [← Option.some_inj.mp h]
    simp

theorem heartBlockStage_verdict (pw : Option PWaveRec) (n : ℕ) (s : ℚ)
    (hcount : ∀ p, pw = some p → p.p_present.count true ≤ n) :
    (heartBlockStage pw n s).1 = ⟨0, Confidence.low⟩ ∨
      (heartBlockStage pw n s).1 = ⟨80, Confidence.high⟩ := by
  unfold heartBlockStage
  cases pw with
  | none => exact Or.inl rfl
  | some p =>
      have hc := hcount p rfl
      dsimp only
      split
      · exact Or.inl rfl
      · split
        · exact Or.inl rfl
        · have hmis : decide ((0 : ℤ) < (p.p_present.count true : ℤ) - (n : ℤ)) = false := by
            simp only [decide_eq_false_iff_not, not_lt]
            omega
          simp only [hmis, Bool.false_eq_true, if_false]
          split
          · exact Or.inr rfl
          · exact Or.inl rfl

/-- C9.  `detect_p_waves` allocates one `p_present` Boolean per R-peak,
so the count of present P-waves can never exceed the R-peak count and
the second-degree-block branch of `determine_arrhythmias`
(`missing_qrs > 0`, lines 673-681) is unreachable for inputs produced by
`analyze_ecg`: the heart_block probability is always 0 or 80 and its
confidence is never `medium`. -/
theorem heart_block_verdict_bounded (filtered : List ℚ)
    (findPeaksH : List ℚ → ℚ → ℕ → List ℕ) (sqrtQ : ℚ → ℚ) (fs : ℕ)
    (r_peaks : List ℕ) (rr : Option RRRec) (qrs : Option QRSRec) (freq : Option FreqRec) :
    ((detect_p_waves filtered findPeaksH sqrtQ fs r_peaks).elim True
      (fun rec => rec.p_present.length = r_peaks.length)) ∧
    ((determine_arrhythmias r_peaks rr (detect_p_waves filtered findPeaksH sqrtQ fs r_peaks)
        qrs freq).heart_block.probability = 0 ∨
      (determine_arrhythmias r_peaks rr (detect_p_waves filtered findPeaksH sqrtQ fs r_peaks)
        qrs freq).heart_block.probability = 80) ∧
    (determine_arrhythmias r_peaks rr (detect_p_waves filtered findPeaksH sqrtQ fs r_peaks)
      qrs freq).heart_block.confidence ≠ Confidence.medium := by
  have hlen : ∀ rec, detect_p_waves filtered findPeaksH sqrtQ fs r_peaks = some rec →
      rec.p_present.length = r_peaks.length :=
    fun rec h => detect_p_waves_length filtered findPeaksH sqrtQ fs r_peaks rec h
  refine ⟨?_, ?_⟩
  · cases hpw : detect_p_waves filtered findPeaksH sqrtQ fs r_peaks with
    | none => trivial
    | some rec =>
        simp only [Option.elim]
        exact hlen rec hpw
  cases rr with
  | none =>
      constructor
      · exact Or.inl rfl
      · intro hcon
        exact Confidence.noConfusion hcon
  | some rrv =>
      obtain ⟨s, hs⟩ : ∃ s, (determine_arrhythmias r_peaks (some rrv)
          (detect_p_waves filtered findPeaksH sqrtQ fs r_peaks) qrs freq).heart_block =
          clampVerdict (heartBlockStage (detect_p_waves filtered findPeaksH sqrtQ fs r_peaks)
            r_peaks.length s).1 := ⟨_, rfl⟩
      have hcnt : ∀ p, detect_p_waves filtered findPeaksH sqrtQ fs r_peaks = some p →
          p.p_present.count true ≤ r_peaks.length := by
        intro p hp
        calc p.p_present.count true ≤ p.p_present.length := List.count_le_length true _
          _ = r_peaks.length := hlen p hp
      rcases heartBlockStage_verdict (detect_p_waves filtered findPeaksH sqrtQ fs r_peaks)
          r_peaks.length s hcnt with h0 | h80
      · rw [hs, h0]
        constructor
        · left
          unfold clampVerdict
          norm_num
        · intro hcon
          exact Confidence.noConfusion hcon
      · rw [hs, h80]
        constructor
        · right
          unfold clampVerdict
          norm_num
        · intro hcon
          exact Confidence.noConfusion hcon

/-- Concrete instantiation of the C9 theorem at an empty filtered signal
and two peaks. -/
theorem heart_block_verdict_bounded_witness :
    Verdict.probability (Arrhythmias.heart_block (determine_arrhythmias [5, 6] none
        (detect_p_waves [] (fun _ _ _ => []) (fun _ => 0) 250 [5, 6]) none none)) = 0 ∨
      Verdict.probability (Arrhythmias.heart_block (determine_arrhythmias [5, 6] none
        (detect_p_waves [] (fun _ _ _ => []) (fun _ => 0) 250 [5, 6]) none none)) = 80 :=
  (heart_block_verdict_bounded [] (fun _ _ _ => []) (fun _ => 0) 250 [5, 6]
    none none none).2.1

/-- C6.  `analyze_ecg` never raises: with fewer than 2 detected R-peaks
it returns the record carrying exactly the fixed error message and the
(possibly empty) detected R-peak list and no analysis fields; with 2 or
more peaks it returns the full record carrying `r_peaks` and the
`rr_analysis`, `p_wave_analysis`, `qrs_analysis`, `freq_analysis` and
`arrhythmias` fields produced by the respective stages. -/
theorem analyze_ecg_branches (coarse : List ℕ) (pFiltered : List ℚ)
    (findPeaksH : List ℚ → ℚ → ℕ → List ℕ) (findPeaksPlain : List ℚ → List ℕ)
    (sqrtQ : ℚ → ℚ) (P : FreqPayload) (fs : ℕ) (ecg : List ℚ) :
    ((detect_r_peaks ecg fs coarse).length < 2 →
      analyze_ecg coarse pFiltered findPeaksH findPeaksPlain sqrtQ P fs ecg =
        ECGResult.insufficient ("Insufficient R peaks detected for analysis")
          (detect_r_peaks ecg fs coarse)) ∧
    (2 ≤ (detect_r_peaks ecg fs coarse).length →
      analyze_ecg coarse pFiltered findPeaksH findPeaksPlain sqrtQ P fs ecg =
        ECGResult.full (detect_r_peaks ecg fs coarse)
          (analyze_rr_intervals fs (detect_r_peaks ecg fs coarse))
          (detect_p_waves pFiltered findPeaksH sqrtQ fs (detect_r_peaks ecg fs coarse))
          (analyze_qrs_morphology findPeaksPlain ecg fs (detect_r_peaks ecg fs coarse))
          (frequency_domain_analysis P ecg (detect_r_peaks ecg fs coarse))
          (determine_arrhythmias (detect_r_peaks ecg fs coarse)
            (analyze_rr_intervals fs (detect_r_peaks ecg fs coarse))
            (detect_p_waves pFiltered findPeaksH sqrtQ fs (detect_r_peaks ecg fs coarse))
            (analyze_qrs_morphology findPeaksPlain ecg fs (detect_r_peaks ecg fs coarse))
            (frequency_domain_analysis P ecg (detect_r_peaks ecg fs coarse)))) := by
  constructor
  · intro h
    simp only [analyze_ecg]
    rw [if_pos h]
  · intro h
    simp only [analyze_ecg]
    rw [if_neg (by omega)]

set_option maxRecDepth 10000 in
/-- Concrete instantiation of the C6 theorem: an empty signal exercises
the error branch, a 200-sample flat signal with two surviving coarse
peaks exercises the full branch. -/
theorem analyze_ecg_branches_witness :
    ((detect_r_peaks [] 250 []).length < 2 ∧
      analyze_ecg [] [] (fun _ _ _ => []) (fun _ => []) (fun _ => 0) ⟨[], [], [], [], none⟩
          250 [] =
        ECGResult.insufficient ("Insufficient R peaks detected for analysis")
          (detect_r_peaks [] 250 [])) ∧
    (2 ≤ (detect_r_peaks (List.replicate 200 (0 : ℚ)) 250 [100, 160]).length ∧
      analyze_ecg [100, 160] [] (fun _ _ _ => []) (fun _ => []) (fun _ => 0)
          ⟨[], [], [], [], none⟩ 250 (List.replicate 200 (0 : ℚ)) =
        ECGResult.full (detect_r_peaks (List.replicate 200 (0 : ℚ)) 250 [100, 160])
          (analyze_rr_intervals 250 (detect_r_peaks (List.replicate 200 (0 : ℚ)) 250 [100, 160]))
          (detect_p_waves [] (fun _ _ _ => []) (fun _ => 0) 250
            (detect_r_peaks (List.replicate 200 (0 : ℚ)) 250 [100, 160]))
          (analyze_qrs_morphology (fun _ => []) (List.replicate 200 (0 : ℚ)) 250
            (detect_r_peaks (List.replicate 200 (0 : ℚ)) 250 [100, 160]))
          (frequency_domain_analysis ⟨[], [], [], [], none⟩ (List.replicate 200 (0 : ℚ))
            (detect_r_peaks (List.replicate 200 (0 : ℚ)) 250 [100, 160]))
          (determine_arrhythmias (detect_r_peaks (List.replicate 200 (0 : ℚ)) 250 [100, 160])
            (analyze_rr_intervals 250 (detect_r_peaks (List.replicate 200 (0 : ℚ)) 250 [100, 160]))
            (detect_p_waves [] (fun _ _ _ => []) (fun _ => 0) 250
              (detect_r_peaks (List.replicate 200 (0 : ℚ)) 250 [100, 160]))
            (analyze_qrs_morphology (fun _ => []) (List.replicate 200 (0 : ℚ)) 250
              (detect_r_peaks (List.replicate 200 (0 : ℚ)) 250 [100, 160]))
            (frequency_domain_analysis ⟨[], [], [], [], none⟩ (List.replicate 200 (0 : ℚ))
              (detect_r_peaks (List.replicate 200 (0 : ℚ)) 250 [100, 160])))) :=
  ⟨⟨by decide,
    (analyze_ecg_branches [] [] (fun _ _ _ => []) (fun _ => []) (fun _ => 0)
      ⟨[], [], [], [], none⟩ 250 []).1 (by decide)⟩,
   ⟨by decide,
    (analyze_ecg_branches [100, 160] [] (fun _ _ _ => []) (fun _ => []) (fun _ => 0)
      ⟨[], [], [], [], none⟩ 250 (List.replicate 200 (0 : ℚ))).2 (by decide)⟩⟩
